import Mathlib

/-!
Shallow embedding of the seamless-loop auto-scroller of
`src/commission.js` (function `setupAutoScroll` and its helpers).

JavaScript numbers are modelled as rationals (`ℚ`), the idealisation of
the reals the specification speaks about that keeps every definition
executable.  The JS `%` operator is the truncated remainder
`a - b * trunc (a / b)` (sign of the dividend), modelled by `jsMod`
below.  Browser state touched by the scroller (the container's
`scrollLeft`, the pending `setTimeout` handles, the `localStorage`
content) is carried explicitly in a `Scroller` record, and each event
listener of the source becomes a state transformer.
-/

namespace Commission

/-- JavaScript truncation toward zero, as used by the `%` operator:
`trunc q` is `⌊q⌋` for nonnegative `q` and `⌈q⌉` for negative `q`. -/
def jsTrunc (q : ℚ) : ℤ :=
  if 0 ≤ q then ⌊q⌋ else ⌈q⌉

/-- JavaScript remainder `a % b` for finite operands: the remainder of
truncated division, carrying the sign of the dividend. -/
def jsMod (a b : ℚ) : ℚ :=
  a - b * (jsTrunc (a / b) : ℚ)

/-- Embedding of `normalizeOffset` (src/commission.js lines 205-208):
`if (setWidth <= 0) return 0; return ((value % setWidth) + setWidth) % setWidth;`.
The closure variable `setWidth` is passed explicitly. -/
def normalizeOffset (setWidth value : ℚ) : ℚ :=
  if setWidth ≤ 0 then 0
  else jsMod (jsMod value setWidth + setWidth) setWidth

/-- Embedding of `normalizeToMiddleBand` (src/commission.js lines 210-213):
`if (setWidth <= 0) return 0; return setWidth + normalizeOffset(value - setWidth);`. -/
def normalizeToMiddleBand (setWidth value : ℚ) : ℚ :=
  if setWidth ≤ 0 then 0
  else setWidth + normalizeOffset setWidth (value - setWidth)

/-- State of one scroller instance together with the browser state it
touches.  The closure variables of `setupAutoScroll`
(src/commission.js lines 198-203) become fields, and so do the
container's `scrollLeft`, the set of pending `setTimeout` handles and
the `localStorage` entry under `storageKey` (already parsed as the
number `Number` would produce; `none` means the key is absent). -/
structure Scroller where
  paused : Bool
  setWidth : ℚ
  savedPos : ℚ
  autoWrite : Bool
  lastTs : ℚ
  scrollLeft : ℚ
  persistTimer : Option Nat
  pendingTimers : List Nat
  nextTimerId : Nat
  stored : Option ℚ
  deriving Repr, DecidableEq

/-- Constant `speedPxPerSecond` (src/commission.js line 195). -/
def speedPxPerSecond : ℚ := 30

/-- Constant `persistDelayMs` (src/commission.js line 197). -/
def persistDelayMs : ℚ := 200

/-- Embedding of `setScrollSafely` (src/commission.js lines 215-219):
raise the `autoWrite` flag, write `container.scrollLeft`, clear the
flag.  Events are atomic in this embedding, so the flag is observably
`false` again once the write completes. -/
def setScrollSafely (s : Scroller) (value : ℚ) : Scroller :=
  let s := { s with autoWrite := true }
  let s := { s with scrollLeft := value }
  { s with autoWrite := false }

/-- Outcome of the raw `localStorage.setItem` call inside
`persistPosition`: `ok = false` models the quota / private-mode
exception. -/
def localStorageSetItem (ok : Bool) (s : Scroller) (value : ℚ) :
    Except Unit Scroller :=
  if ok then Except.ok { s with stored := some value } else Except.error ()

/-- Embedding of `persistPosition` (src/commission.js lines 221-227):
`try { localStorage.setItem(storageKey, String(savedPos)); } catch {}` —
the catch block swallows the storage error, leaving the state as it
was. -/
def persistPosition (ok : Bool) (s : Scroller) : Scroller :=
  match localStorageSetItem ok s s.savedPos with
  | Except.ok s' => s'
  | Except.error _ => s

/-- The same `persistPosition` with the exception channel kept visible:
an uncaught exception would surface as `Except.error`.  Because the
source catches and ignores every storage error, the result is provably
always `Except.ok`. -/
def persistPositionExc (ok : Bool) (s : Scroller) : Except Unit Scroller :=
  match localStorageSetItem ok s s.savedPos with
  | Except.ok s' => Except.ok s'
  | Except.error _ => Except.ok s

/-- Embedding of `clearTimeout`: the handle's pending timeout (if any)
is removed from the browser's pending set. -/
def clearTimeout (pending : List Nat) (handle : Nat) : List Nat :=
  pending.erase handle

/-- Embedding of `schedulePersist` (src/commission.js lines 229-235):
`if (persistTimer) clearTimeout(persistTimer); persistTimer = setTimeout(..., persistDelayMs);`.
`setTimeout` hands out a fresh handle and registers it as pending. -/
def schedulePersist (s : Scroller) : Scroller :=
  let pending :=
    match s.persistTimer with
    | some handle => clearTimeout s.pendingTimers handle
    | none => s.pendingTimers
  let fresh := s.nextTimerId
  { s with pendingTimers := pending ++ [fresh],
           persistTimer := some fresh,
           nextTimerId := fresh + 1 }

/-- Embedding of `syncFromCurrentScroll` (src/commission.js lines 245-252). -/
def syncFromCurrentScroll (s : Scroller) : Scroller :=
  if s.setWidth ≤ 0 then s
  else
    let normalized := normalizeToMiddleBand s.setWidth s.scrollLeft
    let s := if 1 < |normalized - s.scrollLeft| then setScrollSafely s normalized else s
    { s with savedPos := normalizeOffset s.setWidth (normalized - s.setWidth) }

/-- Embedding of the body of `setupAutoScroll` (src/commission.js
lines 191-257) up to the point where the listeners are installed.
`referenceWidth` is `referenceSet.offsetWidth`; `readOutcome` is the
result of the `localStorage.getItem` + `Number` sequence of lines
237-243: `Except.error` when the storage access throws, `Except.ok none`
when the parsed value is not finite, `Except.ok (some parsed)`
otherwise (an absent key reads as `null`, which `Number` turns into the
finite `0`); `stored₀` is the storage content and `initialScrollLeft`
the container's scroll position before setup. -/
def setupAutoScroll (referenceWidth : ℚ) (readOutcome : Except Unit (Option ℚ))
    (stored₀ : Option ℚ) (initialScrollLeft : ℚ) : Scroller :=
  let savedPos : ℚ := 0
  let savedPos :=
    match readOutcome with
    | Except.ok (some parsed) => parsed
    | Except.ok none => savedPos
    | Except.error _ => savedPos
  let s : Scroller :=
    { paused := false, setWidth := referenceWidth, savedPos := savedPos,
      autoWrite := false, lastTs := 0, scrollLeft := initialScrollLeft,
      persistTimer := none, pendingTimers := [], nextTimerId := 0,
      stored := stored₀ }
  let s := { s with savedPos := normalizeOffset s.setWidth s.savedPos }
  if 0 < s.setWidth then setScrollSafely s (s.setWidth + s.savedPos) else s

/-- Embedding of the `scroll` listener (src/commission.js lines 261-265).
The browser first applies the scroll to `scrollLeft`, then runs the
handler, which bails out when `autoWrite` is set or the width is not
positive. -/
def onScroll (s : Scroller) (newScrollLeft : ℚ) : Scroller :=
  let s := { s with scrollLeft := newScrollLeft }
  if s.autoWrite ∨ s.setWidth ≤ 0 then s
  else schedulePersist (syncFromCurrentScroll s)

/-- Embedding of the `resize` listener (src/commission.js lines 267-277). -/
def onResize (s : Scroller) (newWidth : ℚ) : Scroller :=
  let prevWidth := s.setWidth
  let s := { s with setWidth := newWidth }
  if s.setWidth ≤ 0 then s
  else
    let s :=
      if 0 < prevWidth then { s with savedPos := s.savedPos / prevWidth * s.setWidth }
      else s
    let s := { s with savedPos := normalizeOffset s.setWidth s.savedPos }
    setScrollSafely s (s.setWidth + s.savedPos)

/-- Embedding of the `mouseenter` listener (src/commission.js line 259). -/
def onMouseenter (s : Scroller) : Scroller :=
  { s with paused := true }

/-- Embedding of the `mouseleave` listener (src/commission.js line 260). -/
def onMouseleave (s : Scroller) : Scroller :=
  { s with paused := false }

/-- Firing of the debounce timeout scheduled by `schedulePersist`
(src/commission.js lines 231-234): the browser runs the callback only
if the handle is still pending; the callback nulls `persistTimer` and
calls `persistPosition`. -/
def onPersistTimerFire (s : Scroller) (handle : Nat) (ok : Bool) : Scroller :=
  if handle ∈ s.pendingTimers then
    let s := { s with pendingTimers := s.pendingTimers.erase handle,
                      persistTimer := none }
    persistPosition ok s
  else s

/-- Embedding of the `pagehide` listener (src/commission.js lines 279-285). -/
def onPagehide (s : Scroller) (ok : Bool) : Scroller :=
  let s :=
    match s.persistTimer with
    | some handle =>
        { s with pendingTimers := clearTimeout s.pendingTimers handle,
                 persistTimer := none }
    | none => s
  persistPosition ok s

/-- Embedding of the `visibilitychange` listener (src/commission.js
lines 286-294); `hidden` is whether `document.visibilityState` is
`"hidden"`. -/
def onVisibilitychange (s : Scroller) (hidden : Bool) (ok : Bool) : Scroller :=
  if hidden then
    let s :=
      match s.persistTimer with
      | some handle =>
          { s with pendingTimers := clearTimeout s.pendingTimers handle,
                   persistTimer := none }
      | none => s
    persistPosition ok s
  else s

/-- Embedding of `tick` (src/commission.js lines 296-306).  `ts` is the
`requestAnimationFrame` timestamp; `!lastTs` is the JS falsiness test,
true exactly when `lastTs = 0`. -/
def tick (s : Scroller) (ts : ℚ) : Scroller :=
  let lastTs := if s.lastTs = 0 then ts else s.lastTs
  let deltaSeconds := (ts - lastTs) / 1000
  let s := { s with lastTs := ts }
  if s.paused = false ∧ 0 < s.setWidth then
    let s := { s with
      savedPos := normalizeOffset s.setWidth
        (s.savedPos + speedPxPerSecond * deltaSeconds) }
    setScrollSafely s (s.setWidth + s.savedPos)
  else s

/-- The events that can reach one scroller instance after setup. -/
inductive Ev where
  | scroll (newScrollLeft : ℚ)
  | frame (ts : ℚ)
  | resize (newWidth : ℚ)
  | mouseenter
  | mouseleave
  | timerFire (handle : Nat) (ok : Bool)
  | pagehide (ok : Bool)
  | visibilitychange (hidden : Bool) (ok : Bool)
  deriving Repr, DecidableEq

/-- One event step of the scroller. -/
def step (s : Scroller) : Ev → Scroller
  | Ev.scroll newScrollLeft => onScroll s newScrollLeft
  | Ev.frame ts => tick s ts
  | Ev.resize newWidth => onResize s newWidth
  | Ev.mouseenter => onMouseenter s
  | Ev.mouseleave => onMouseleave s
  | Ev.timerFire handle ok => onPersistTimerFire s handle ok
  | Ev.pagehide ok => onPagehide s ok
  | Ev.visibilitychange hidden ok => onVisibilitychange s hidden ok

/-- A scroller state used to instantiate the theorems on the concrete
examples of the specification: width 1000, at rest at the start of the
middle band. -/
def exScroller : Scroller :=
  { paused := false, setWidth := 1000, savedPos := 0, autoWrite := false,
    lastTs := 0, scrollLeft := 1000, persistTimer := none,
    pendingTimers := [], nextTimerId := 0, stored := none }

/-- The invariant of the debounce machinery: the pending `setTimeout`
handles are exactly the one recorded in `persistTimer` (in particular
there is at most one). -/
def timerInv (s : Scroller) : Prop :=
  s.pendingTimers = s.persistTimer.toList

/-- A scroller state with one pending debounce timeout, to instantiate
the timer-invariant theorems. -/
def exTimerScroller : Scroller :=
  { exScroller with persistTimer := some 5, pendingTimers := [5] }

theorem jsMod_of_nonneg (a b : ℚ) (ha : 0 ≤ a) (hb : 0 < b) :
    jsMod a b = a - b * (⌊a / b⌋ : ℚ) := by
  unfold jsMod jsTrunc
  rw [if_pos (div_nonneg ha hb.le)]

theorem jsMod_of_neg (a b : ℚ) (ha : a < 0) (hb : 0 < b) :
    jsMod a b = a - b * (⌈a / b⌉ : ℚ) := by
  unfold jsMod jsTrunc
  rw [if_neg (not_le.mpr (div_neg_of_neg_of_pos ha hb))]

theorem jsMod_nonneg_bounds (a b : ℚ) (ha : 0 ≤ a) (hb : 0 < b) :
    0 ≤ jsMod a b ∧ jsMod a b < b := by
  rw [jsMod_of_nonneg a b ha hb]
  constructor
  · have h := Int.floor_le (a / b)
    have h2 : b * (⌊a / b⌋ : ℚ) ≤ b * (a / b) := by
      exact mul_le_mul_of_nonneg_left h hb.le
    rw [mul_div_cancel₀ a hb.ne'] at h2
    linarith
  · have h := Int.lt_floor_add_one (a / b)
    have h2 : b * (a / b) < b * ((⌊a / b⌋ : ℚ) + 1) := by
      exact mul_lt_mul_of_pos_left h hb
    rw [mul_div_cancel₀ a hb.ne'] at h2
    linarith [mul_one b]

theorem jsMod_neg_bounds (a b : ℚ) (ha : a < 0) (hb : 0 < b) :
    -b < jsMod a b ∧ jsMod a b ≤ 0 := by
  rw [jsMod_of_neg a b ha hb]
  constructor
  · have h := Int.ceil_lt_add_one (a / b)
    have h2 : b * (⌈a / b⌉ : ℚ) < b * (a / b + 1) := by
      exact mul_lt_mul_of_pos_left h hb
    rw [mul_add, mul_div_cancel₀ a hb.ne', mul_one] at h2
    linarith
  · have h := Int.le_ceil (a / b)
    have h2 : b * (a / b) ≤ b * (⌈a / b⌉ : ℚ) := by
      exact mul_le_mul_of_nonneg_left h hb.le
    rw [mul_div_cancel₀ a hb.ne'] at h2
    linarith

theorem normalizeOffset_bounds (setWidth value : ℚ) (hw : 0 < setWidth) :
    0 ≤ normalizeOffset setWidth value ∧ normalizeOffset setWidth value < setWidth := by
  unfold normalizeOffset
  rw [if_neg (not_le.mpr hw)]
  rcases le_or_lt 0 value with hv | hv
  · obtain ⟨h1, h2⟩ := jsMod_nonneg_bounds value setWidth hv hw
    exact jsMod_nonneg_bounds _ setWidth (by linarith) hw
  · obtain ⟨h1, h2⟩ := jsMod_neg_bounds value setWidth hv hw
    exact jsMod_nonneg_bounds _ setWidth (by linarith) hw

theorem normalizeOffset_eq_self (setWidth value : ℚ)
    (hw : 0 < setWidth) (h0 : 0 ≤ value) (h1 : value < setWidth) :
    normalizeOffset setWidth value = value := by
  unfold normalizeOffset
  rw [if_neg (not_le.mpr hw)]
  have hmod : jsMod value setWidth = value := by
    rw [jsMod_of_nonneg value setWidth h0 hw]
    have : ⌊value / setWidth⌋ = 0 := by
      rw [Int.floor_eq_zero_iff]
      constructor
      · exact div_nonneg h0 hw.le
      · rw [div_lt_one hw]; exact h1
    rw [this]
    push_cast
    ring
  rw [hmod]
  rw [jsMod_of_nonneg _ setWidth (by linarith) hw]
  have : ⌊(value + setWidth) / setWidth⌋ = 1 := by
    rw [add_div, div_self hw.ne']
    rw [Int.floor_add_one]
    have : ⌊value / setWidth⌋ = 0 := by
      rw [Int.floor_eq_zero_iff]
      constructor
      · exact div_nonneg h0 hw.le
      · rw [div_lt_one hw]; exact h1
    omega
  rw [this]
  push_cast
  ring

theorem normalizeOffset_idem (setWidth value : ℚ) (hw : 0 < setWidth) :
    normalizeOffset setWidth (normalizeOffset setWidth value)
      = normalizeOffset setWidth value := by
  obtain ⟨h0, h1⟩ := normalizeOffset_bounds setWidth value hw
  exact normalizeOffset_eq_self setWidth _ hw h0 h1

theorem normalizeOffset_zero (setWidth : ℚ) :
    normalizeOffset setWidth 0 = 0 := by
  rcases le_or_lt setWidth 0 with hw | hw
  · unfold normalizeOffset
    rw [if_pos hw]
  · exact normalizeOffset_eq_self setWidth 0 hw le_rfl hw

theorem normalizeToMiddleBand_sub (setWidth value : ℚ) (hw : 0 < setWidth) :
    normalizeToMiddleBand setWidth value - setWidth
      = normalizeOffset setWidth (value - setWidth) := by
  unfold normalizeToMiddleBand
  rw [if_neg (not_le.mpr hw)]
  ring

theorem normalizeToMiddleBand_def_of_pos (setWidth value : ℚ) (hw : 0 < setWidth) :
    normalizeToMiddleBand setWidth value
      = setWidth + normalizeOffset setWidth (value - setWidth) := by
  unfold normalizeToMiddleBand
  rw [if_neg (not_le.mpr hw)]

/-- C5: for every value `v` and every `setWidth > 0`, `normalizeOffset`
computes `((v % setWidth) + setWidth) % setWidth` (JS truncated
remainder) and the result lies in the half-open interval
`[0, setWidth)`, also for negative `v`. -/
theorem normalizeOffset_formula_and_range (setWidth value : ℚ)
    (hw : 0 < setWidth) :
    normalizeOffset setWidth value
        = jsMod (jsMod value setWidth + setWidth) setWidth
      ∧ 0 ≤ normalizeOffset setWidth value
      ∧ normalizeOffset setWidth value < setWidth := by
  refine ⟨?_, normalizeOffset_bounds setWidth value hw⟩
  unfold normalizeOffset
  rw [if_neg (not_le.mpr hw)]

/-- Witness for C5 at `setWidth = 1000`, `value = -1`. -/
theorem normalizeOffset_formula_and_range_witness :
    0 < (1000 : ℚ)
      ∧ (normalizeOffset 1000 (-1)
            = jsMod (jsMod (-1) 1000 + 1000) 1000
          ∧ 0 ≤ normalizeOffset 1000 (-1)
          ∧ normalizeOffset 1000 (-1) < 1000) :=
  ⟨by norm_num, normalizeOffset_formula_and_range 1000 (-1) (by norm_num)⟩

/-- C6 counterexample: the claim asserts membership of
`normalizeToMiddleBand value` in `[setWidth, 2*setWidth)` for every
real `value` with no positivity condition on `setWidth`; at
`setWidth = 0` (a reachable width: empty or unrendered content) the
function returns `0` and the asserted interval `[0, 0)` is empty. -/
theorem normalizeToMiddleBand_range_fails_at_zero_width :
    ¬ ((0 : ℚ) ≤ normalizeToMiddleBand 0 0
        ∧ normalizeToMiddleBand 0 0 < 2 * 0) := by
  intro h
  have h2 := h.2
  have h0 : normalizeToMiddleBand 0 0 = 0 := by
    unfold normalizeToMiddleBand
    rw [if_pos le_rfl]
  rw [h0] at h2
  norm_num at h2

/-- C6 (amended with the positivity condition the guard in the source
makes necessary): for every value `v` and every `setWidth > 0`,
`normalizeToMiddleBand v = setWidth + normalizeOffset (v - setWidth)`
lies in the half-open interval `[setWidth, 2 * setWidth)`. -/
theorem normalizeToMiddleBand_range_of_pos_width (setWidth value : ℚ)
    (hw : 0 < setWidth) :
    normalizeToMiddleBand setWidth value
        = setWidth + normalizeOffset setWidth (value - setWidth)
      ∧ setWidth ≤ normalizeToMiddleBand setWidth value
      ∧ normalizeToMiddleBand setWidth value < 2 * setWidth := by
  have hdef := normalizeToMiddleBand_def_of_pos setWidth value hw
  obtain ⟨h0, h1⟩ := normalizeOffset_bounds setWidth (value - setWidth) hw
  refine ⟨hdef, ?_, ?_⟩
  · rw [hdef]; linarith
  · rw [hdef]; linarith

/-- Witness for the amended C6 at `setWidth = 1000`, `value = 999`. -/
theorem normalizeToMiddleBand_range_of_pos_width_witness :
    0 < (1000 : ℚ)
      ∧ (normalizeToMiddleBand 1000 999
            = 1000 + normalizeOffset 1000 (999 - 1000)
          ∧ 1000 ≤ normalizeToMiddleBand 1000 999
          ∧ normalizeToMiddleBand 1000 999 < 2 * 1000) :=
  ⟨by norm_num, normalizeToMiddleBand_range_of_pos_width 1000 999 (by norm_num)⟩

theorem setScrollSafely_eq (s : Scroller) (v : ℚ) :
    setScrollSafely s v = { s with autoWrite := false, scrollLeft := v } := rfl

theorem onScroll_spec (s : Scroller) (L : ℚ) (haw : s.autoWrite = false)
    (hw : 0 < s.setWidth) :
    (onScroll s L).setWidth = s.setWidth
      ∧ (onScroll s L).scrollLeft
          = (if 1 < |normalizeToMiddleBand s.setWidth L - L|
             then normalizeToMiddleBand s.setWidth L else L)
      ∧ (onScroll s L).savedPos
          = normalizeOffset s.setWidth
              (normalizeToMiddleBand s.setWidth L - s.setWidth) := by
  unfold onScroll syncFromCurrentScroll schedulePersist setScrollSafely
  by_cases hc : 1 < |normalizeToMiddleBand s.setWidth L - L| <;>
    simp [haw, hw.not_le, hc]

/-- C1: whenever `setWidth > 0`, every programmatic scroll write (setup,
tick, resize, scroll-event correction) leaves
`scrollLeft = setWidth + savedPos`, and after the scroll handler
processes a user-driven scroll, `savedPos` equals
`normalizeOffset (scrollLeft - setWidth)` for the resulting
`scrollLeft`. -/
theorem programmatic_write_invariant :
    (∀ (w : ℚ) (rd : Except Unit (Option ℚ)) (st₀ : Option ℚ) (sl₀ : ℚ),
        0 < w →
        (setupAutoScroll w rd st₀ sl₀).scrollLeft
          = (setupAutoScroll w rd st₀ sl₀).setWidth
            + (setupAutoScroll w rd st₀ sl₀).savedPos)
      ∧ (∀ (s : Scroller) (ts : ℚ), s.paused = false → 0 < s.setWidth →
          (tick s ts).scrollLeft = (tick s ts).setWidth + (tick s ts).savedPos)
      ∧ (∀ (s : Scroller) (w' : ℚ), 0 < w' →
          (onResize s w').scrollLeft
            = (onResize s w').setWidth + (onResize s w').savedPos)
      ∧ (∀ (s : Scroller) (L : ℚ), s.autoWrite = false → 0 < s.setWidth →
          1 < |normalizeToMiddleBand s.setWidth L - L| →
          (onScroll s L).scrollLeft
            = (onScroll s L).setWidth + (onScroll s L).savedPos)
      ∧ (∀ (s : Scroller) (L : ℚ), s.autoWrite = false → 0 < s.setWidth →
          (onScroll s L).savedPos
            = normalizeOffset (onScroll s L).setWidth
                ((onScroll s L).scrollLeft - (onScroll s L).setWidth)) := by
  refine ⟨?_, ?_, ?_, ?_, ?_⟩
  · intro w rd st₀ sl₀ hw
    unfold setupAutoScroll setScrollSafely
    simp only [hw]
    simp
  · intro s ts hp hw
    unfold tick setScrollSafely
    simp only [hp, hw]
    simp
  · intro s w' hw'
    unfold onResize setScrollSafely
    simp only [hw'.not_le]
    split <;> simp_all
  · intro s L haw hw himm
    obtain ⟨hsw, hsl, hsp⟩ := onScroll_spec s L haw hw
    rw [hsw, hsl, hsp, if_pos himm, normalizeToMiddleBand_sub _ _ hw,
      normalizeOffset_idem _ _ hw, normalizeToMiddleBand_def_of_pos _ _ hw]
  · intro s L haw hw
    obtain ⟨hsw, hsl, hsp⟩ := onScroll_spec s L haw hw
    rw [hsw, hsl, hsp]
    split
    · rfl
    · rw [normalizeToMiddleBand_sub _ _ hw, normalizeOffset_idem _ _ hw]

/-- Witness for C1: the setup conjunct at width 1000 with stored offset
250 and the scroll-handler conjunct on `exScroller` after a user scroll
to 999. -/
theorem programmatic_write_invariant_witness :
    ((setupAutoScroll 1000 (Except.ok (some 250)) none 0).scrollLeft
        = (setupAutoScroll 1000 (Except.ok (some 250)) none 0).setWidth
          + (setupAutoScroll 1000 (Except.ok (some 250)) none 0).savedPos)
      ∧ ((onScroll exScroller 999).savedPos
          = normalizeOffset (onScroll exScroller 999).setWidth
              ((onScroll exScroller 999).scrollLeft
                - (onScroll exScroller 999).setWidth)) :=
  ⟨programmatic_write_invariant.1 1000 (Except.ok (some 250)) none 0
      (by norm_num),
   programmatic_write_invariant.2.2.2.2 exScroller 999 rfl (by norm_num [exScroller])⟩

/-- C2: on a user-driven scroll event with `setWidth > 0`, the handler
computes the normalized middle-band position of the current
`scrollLeft`; when it differs from `scrollLeft` by more than one pixel
it repositions `scrollLeft` there, and it then sets `savedPos` from the
(possibly corrected) position; with `setWidth = 1000` and visible
position 999 the corrected position is 1999 and `savedPos` becomes
999. -/
theorem scroll_event_correction :
    (∀ (s : Scroller) (L : ℚ), s.autoWrite = false → 0 < s.setWidth →
        (onScroll s L).scrollLeft
            = (if 1 < |normalizeToMiddleBand s.setWidth L - L|
               then normalizeToMiddleBand s.setWidth L else L)
          ∧ (onScroll s L).savedPos
            = normalizeOffset s.setWidth ((onScroll s L).scrollLeft - s.setWidth))
      ∧ (onScroll exScroller 999).scrollLeft = 1999
      ∧ (onScroll exScroller 999).savedPos = 999 := by
  have hgen : ∀ (s : Scroller) (L : ℚ), s.autoWrite = false → 0 < s.setWidth →
      (onScroll s L).scrollLeft
          = (if 1 < |normalizeToMiddleBand s.setWidth L - L|
             then normalizeToMiddleBand s.setWidth L else L)
        ∧ (onScroll s L).savedPos
          = normalizeOffset s.setWidth ((onScroll s L).scrollLeft - s.setWidth) := by
    intro s L haw hw
    obtain ⟨hsw, hsl, hsp⟩ := onScroll_spec s L haw hw
    refine ⟨hsl, ?_⟩
    rw [hsp, hsl]
    split
    · rfl
    · rw [normalizeToMiddleBand_sub _ _ hw, normalizeOffset_idem _ _ hw]
  have hmid : normalizeToMiddleBand (1000 : ℚ) 999 = 1999 := by
    norm_num [normalizeToMiddleBand, normalizeOffset, jsMod, jsTrunc, Int.ceil_neg]
  obtain ⟨hsl, hsp⟩ := hgen exScroller 999 rfl (by norm_num [exScroller])
  have hw : exScroller.setWidth = 1000 := rfl
  rw [hw] at hsl hsp
  have hsl' : (onScroll exScroller 999).scrollLeft = 1999 := by
    rw [hsl, hmid]
    norm_num
  refine ⟨hgen, hsl', ?_⟩
  rw [hsp, hsl']
  norm_num [normalizeOffset, jsMod, jsTrunc, Int.ceil_neg]

/-- Witness for C2's general conjunct on `exScroller` after a user
scroll to 500 (within one pixel of its middle-band position, so no
correction happens). -/
theorem scroll_event_correction_witness :
    exScroller.autoWrite = false ∧ 0 < exScroller.setWidth
      ∧ ((onScroll exScroller 1500).scrollLeft
            = (if 1 < |normalizeToMiddleBand exScroller.setWidth 1500 - 1500|
               then normalizeToMiddleBand exScroller.setWidth 1500 else 1500)
          ∧ (onScroll exScroller 1500).savedPos
            = normalizeOffset exScroller.setWidth
                ((onScroll exScroller 1500).scrollLeft - exScroller.setWidth)) :=
  ⟨rfl, by norm_num [exScroller],
   scroll_event_correction.1 exScroller 1500 rfl (by norm_num [exScroller])⟩

/-- C3: on an animation tick with `paused = false` and `setWidth > 0`,
`savedPos` is advanced by `speedPxPerSecond` times the elapsed seconds
since the previous frame (zero on the first frame, where `lastTs = 0`),
normalized into `[0, setWidth)`, and the visible position is set to
`setWidth + savedPos`; with speed 30 px/s, elapsed 1 s,
`setWidth = 1000` and `savedPos = 990` the new `savedPos` is 20 and the
visible position 1020. -/
theorem tick_advances_and_wraps :
    (∀ (s : Scroller) (ts : ℚ), s.paused = false → 0 < s.setWidth →
        (tick s ts).savedPos
            = normalizeOffset s.setWidth
                (s.savedPos + speedPxPerSecond *
                  ((ts - (if s.lastTs = 0 then ts else s.lastTs)) / 1000))
          ∧ 0 ≤ (tick s ts).savedPos
          ∧ (tick s ts).savedPos < s.setWidth
          ∧ (tick s ts).scrollLeft = s.setWidth + (tick s ts).savedPos)
      ∧ (tick { exScroller with savedPos := 990, lastTs := 1000 } 2000).savedPos = 20
      ∧ (tick { exScroller with savedPos := 990, lastTs := 1000 } 2000).scrollLeft
          = 1020 := by
  have hgen : ∀ (s : Scroller) (ts : ℚ), s.paused = false → 0 < s.setWidth →
      (tick s ts).savedPos
          = normalizeOffset s.setWidth
              (s.savedPos + speedPxPerSecond *
                ((ts - (if s.lastTs = 0 then ts else s.lastTs)) / 1000))
        ∧ 0 ≤ (tick s ts).savedPos
        ∧ (tick s ts).savedPos < s.setWidth
        ∧ (tick s ts).scrollLeft = s.setWidth + (tick s ts).savedPos := by
    intro s ts hp hw
    have hdef : (tick s ts).savedPos
        = normalizeOffset s.setWidth
            (s.savedPos + speedPxPerSecond *
              ((ts - (if s.lastTs = 0 then ts else s.lastTs)) / 1000)) := by
      unfold tick setScrollSafely
      simp [hp, hw]
    obtain ⟨h0, h1⟩ := normalizeOffset_bounds s.setWidth
      (s.savedPos + speedPxPerSecond *
        ((ts - (if s.lastTs = 0 then ts else s.lastTs)) / 1000)) hw
    refine ⟨hdef, ?_, ?_, ?_⟩
    · rw [hdef]; exact h0
    · rw [hdef]; exact h1
    · unfold tick setScrollSafely
      simp [hp, hw]
  have hsp : (tick { exScroller with savedPos := 990, lastTs := 1000 } 2000).savedPos
      = 20 := by
    have h := (hgen { exScroller with savedPos := 990, lastTs := 1000 } 2000
      rfl (by norm_num [exScroller])).1
    rw [h]
    norm_num [exScroller, speedPxPerSecond, normalizeOffset, jsMod, jsTrunc,
      Int.ceil_neg]
  have hsl := (hgen { exScroller with savedPos := 990, lastTs := 1000 } 2000
    rfl (by norm_num [exScroller])).2.2.2
  refine ⟨hgen, hsp, ?_⟩
  rw [hsl, hsp]
  norm_num [exScroller]

/-- Witness for C3's general conjunct on `exScroller` (first frame,
`lastTs = 0`). -/
theorem tick_advances_and_wraps_witness :
    exScroller.paused = false ∧ 0 < exScroller.setWidth
      ∧ ((tick exScroller 16).savedPos
            = normalizeOffset exScroller.setWidth
                (exScroller.savedPos + speedPxPerSecond *
                  ((16 - (if exScroller.lastTs = 0 then 16 else exScroller.lastTs))
                    / 1000))
          ∧ 0 ≤ (tick exScroller 16).savedPos
          ∧ (tick exScroller 16).savedPos < exScroller.setWidth
          ∧ (tick exScroller 16).scrollLeft
              = exScroller.setWidth + (tick exScroller 16).savedPos) :=
  ⟨rfl, by norm_num [exScroller],
   tick_advances_and_wraps.1 exScroller 16 rfl (by norm_num [exScroller])⟩

/-- C4: on a resize with a positive new width and a previously positive
width, `savedPos` is rescaled by `newWidth / oldWidth`, normalized, and
the visible position is set to `setWidth + savedPos`; resizing from
width 1000 to 2000 with `savedPos = 500` yields `savedPos = 1000`. -/
theorem resize_rescales_savedPos :
    (∀ (s : Scroller) (newWidth : ℚ), 0 < newWidth → 0 < s.setWidth →
        (onResize s newWidth).setWidth = newWidth
          ∧ (onResize s newWidth).savedPos
            = normalizeOffset newWidth (s.savedPos / s.setWidth * newWidth)
          ∧ (onResize s newWidth).scrollLeft
            = newWidth + (onResize s newWidth).savedPos)
      ∧ (onResize { exScroller with savedPos := 500 } 2000).savedPos = 1000 := by
  have hgen : ∀ (s : Scroller) (newWidth : ℚ), 0 < newWidth → 0 < s.setWidth →
      (onResize s newWidth).setWidth = newWidth
        ∧ (onResize s newWidth).savedPos
          = normalizeOffset newWidth (s.savedPos / s.setWidth * newWidth)
        ∧ (onResize s newWidth).scrollLeft
          = newWidth + (onResize s newWidth).savedPos := by
    intro s newWidth hw' hw
    unfold onResize setScrollSafely
    simp [hw'.not_le, hw]
  refine ⟨hgen, ?_⟩
  have h := (hgen { exScroller with savedPos := 500 } 2000 (by norm_num)
    (by norm_num [exScroller])).2.1
  rw [h]
  norm_num [exScroller, normalizeOffset, jsMod, jsTrunc, Int.ceil_neg]

/-- Witness for C4's general conjunct: resize of `exScroller` to width
2000. -/
theorem resize_rescales_savedPos_witness :
    0 < (2000 : ℚ) ∧ 0 < exScroller.setWidth
      ∧ ((onResize exScroller 2000).setWidth = 2000
          ∧ (onResize exScroller 2000).savedPos
            = normalizeOffset 2000 (exScroller.savedPos / exScroller.setWidth * 2000)
          ∧ (onResize exScroller 2000).scrollLeft
            = 2000 + (onResize exScroller 2000).savedPos) :=
  ⟨by norm_num, by norm_num [exScroller],
   resize_rescales_savedPos.1 exScroller 2000 (by norm_num)
     (by norm_num [exScroller])⟩

/-- C8: while `paused = true`, a tick leaves `savedPos`, the visible
position and every other field unchanged, whatever the elapsed time;
the only update is the frame-timestamp baseline `lastTs`; in
particular an elapsed half second at 30 px/s moves nothing. -/
theorem paused_tick_only_updates_timestamp :
    (∀ (s : Scroller) (ts : ℚ), s.paused = true →
        tick s ts = { s with lastTs := ts })
      ∧ tick { exScroller with paused := true, savedPos := 990, lastTs := 1000 } 1500
          = { exScroller with paused := true, savedPos := 990, lastTs := 1500 } := by
  have hgen : ∀ (s : Scroller) (ts : ℚ), s.paused = true →
      tick s ts = { s with lastTs := ts } := by
    intro s ts hp
    unfold tick setScrollSafely
    simp [hp]
  exact ⟨hgen, by rw [hgen _ _ rfl]⟩

/-- Witness for C8's general conjunct on a paused `exScroller`. -/
theorem paused_tick_only_updates_timestamp_witness :
    ({ exScroller with paused := true } : Scroller).paused = true
      ∧ tick { exScroller with paused := true } 16
          = { { exScroller with paused := true } with lastTs := 16 } :=
  ⟨rfl, paused_tick_only_updates_timestamp.1 { exScroller with paused := true } 16 rfl⟩

theorem setupAutoScroll_setWidth (w : ℚ) (rd : Except Unit (Option ℚ))
    (st₀ : Option ℚ) (sl₀ : ℚ) :
    (setupAutoScroll w rd st₀ sl₀).setWidth = w := by
  unfold setupAutoScroll setScrollSafely
  split <;> (simp only []; split_ifs <;> rfl)

theorem normalizeOffset_nonpos (setWidth value : ℚ) (hw : setWidth ≤ 0) :
    normalizeOffset setWidth value = 0 := by
  unfold normalizeOffset
  rw [if_pos hw]

/-- C10: when `setupAutoScroll` runs with a non-positive width, the
offset restored from storage is discarded: `normalizeOffset` returns 0
whenever `setWidth ≤ 0`, so `savedPos` ends setup at 0 whatever was
stored, and a later resize to a positive width resumes from offset 0
(visible position `newWidth`). -/
theorem nonpositive_width_discards_stored_offset :
    (∀ (w v : ℚ), w ≤ 0 → normalizeOffset w v = 0)
      ∧ (∀ (w sl₀ : ℚ) (rd : Except Unit (Option ℚ)) (st₀ : Option ℚ),
          w ≤ 0 → (setupAutoScroll w rd st₀ sl₀).savedPos = 0)
      ∧ (∀ (w sl₀ newWidth : ℚ) (rd : Except Unit (Option ℚ)) (st₀ : Option ℚ),
          w ≤ 0 → 0 < newWidth →
          (onResize (setupAutoScroll w rd st₀ sl₀) newWidth).savedPos = 0
            ∧ (onResize (setupAutoScroll w rd st₀ sl₀) newWidth).scrollLeft
                = newWidth) := by
  have hsetup : ∀ (w sl₀ : ℚ) (rd : Except Unit (Option ℚ)) (st₀ : Option ℚ),
      w ≤ 0 → (setupAutoScroll w rd st₀ sl₀).savedPos = 0 := by
    intro w sl₀ rd st₀ hw
    have h1 : ∀ v, normalizeOffset w v = 0 := fun v => normalizeOffset_nonpos w v hw
    unfold setupAutoScroll setScrollSafely
    simp [hw.not_lt, h1]
  refine ⟨fun w v hw => normalizeOffset_nonpos w v hw, hsetup, ?_⟩
  intro w sl₀ newWidth rd st₀ hw hw'
  have hsw := setupAutoScroll_setWidth w rd st₀ sl₀
  have hsp := hsetup w sl₀ rd st₀ hw
  unfold onResize setScrollSafely
  rw [hsw, hsp]
  simp [hw'.not_le, hw.not_lt, normalizeOffset_zero]

/-- Witness for C10 with stored offset 250 and width 0, then a resize
to width 1000. -/
theorem nonpositive_width_discards_stored_offset_witness :
    (0 : ℚ) ≤ 0 ∧ 0 < (1000 : ℚ)
      ∧ normalizeOffset 0 250 = 0
      ∧ (setupAutoScroll 0 (Except.ok (some 250)) (some 250) 0).savedPos = 0
      ∧ (onResize (setupAutoScroll 0 (Except.ok (some 250)) (some 250) 0)
            1000).savedPos = 0
      ∧ (onResize (setupAutoScroll 0 (Except.ok (some 250)) (some 250) 0)
            1000).scrollLeft = 1000 := by
  obtain ⟨h1, h2⟩ := nonpositive_width_discards_stored_offset.2.2 0 0 1000
    (Except.ok (some 250)) (some 250) le_rfl (by norm_num)
  exact ⟨le_rfl, by norm_num,
    nonpositive_width_discards_stored_offset.1 0 250 le_rfl,
    nonpositive_width_discards_stored_offset.2.1 0 0 (Except.ok (some 250))
      (some 250) le_rfl, h1, h2⟩

theorem persistPosition_state (ok : Bool) (s : Scroller) :
    persistPosition ok s
      = { s with stored := if ok then some s.savedPos else s.stored } := by
  cases ok <;> simp [persistPosition, localStorageSetItem]

/-- C7: at setup, a storage read failure or a non-finite stored value
leaves `savedPos` at the default 0; and `persistPosition` catches every
storage error (the exception-transparent view always returns
`Except.ok`), touches nothing but the storage cell, and a subsequent
tick behaves exactly as if the persist had succeeded. -/
theorem storage_failures_are_swallowed :
    (∀ (w sl₀ : ℚ) (rd : Except Unit (Option ℚ)) (st₀ : Option ℚ),
        rd = Except.error () ∨ rd = Except.ok none →
        (setupAutoScroll w rd st₀ sl₀).savedPos = 0)
      ∧ (∀ (ok : Bool) (s : Scroller),
          persistPositionExc ok s = Except.ok (persistPosition ok s))
      ∧ (∀ (ok : Bool) (s : Scroller),
          (persistPosition ok s).paused = s.paused
            ∧ (persistPosition ok s).setWidth = s.setWidth
            ∧ (persistPosition ok s).savedPos = s.savedPos
            ∧ (persistPosition ok s).lastTs = s.lastTs
            ∧ (persistPosition ok s).scrollLeft = s.scrollLeft)
      ∧ (∀ (ok : Bool) (s : Scroller) (ts : ℚ),
          (tick (persistPosition ok s) ts).savedPos = (tick s ts).savedPos
            ∧ (tick (persistPosition ok s) ts).scrollLeft
                = (tick s ts).scrollLeft) := by
  refine ⟨?_, ?_, ?_, ?_⟩
  · intro w sl₀ rd st₀ hrd
    have h0 : normalizeOffset w 0 = 0 := normalizeOffset_zero w
    rcases hrd with hrd | hrd <;>
      (subst hrd
       unfold setupAutoScroll setScrollSafely
       simp only []
       split_ifs <;> simp [h0])
  · intro ok s
    cases ok <;> simp [persistPositionExc, persistPosition, localStorageSetItem]
  · intro ok s
    rw [persistPosition_state]
    exact ⟨rfl, rfl, rfl, rfl, rfl⟩
  · intro ok s ts
    rw [persistPosition_state]
    unfold tick setScrollSafely
    simp only []
    split_ifs <;> simp_all

/-- Witness for C7 at width 1000 with a throwing storage read and a
failing persist on `exScroller`. -/
theorem storage_failures_are_swallowed_witness :
    ((Except.error () : Except Unit (Option ℚ)) = Except.error ()
        ∨ (Except.error () : Except Unit (Option ℚ)) = Except.ok none)
      ∧ (setupAutoScroll 1000 (Except.error ()) none 0).savedPos = 0
      ∧ persistPositionExc false exScroller
          = Except.ok (persistPosition false exScroller)
      ∧ (tick (persistPosition false exScroller) 16).savedPos
          = (tick exScroller 16).savedPos :=
  ⟨Or.inl rfl,
   storage_failures_are_swallowed.1 1000 0 (Except.error ()) none (Or.inl rfl),
   storage_failures_are_swallowed.2.1 false exScroller,
   (storage_failures_are_swallowed.2.2.2 false exScroller 16).1⟩

theorem syncFromCurrentScroll_timers (s : Scroller) :
    (syncFromCurrentScroll s).pendingTimers = s.pendingTimers
      ∧ (syncFromCurrentScroll s).persistTimer = s.persistTimer
      ∧ (syncFromCurrentScroll s).nextTimerId = s.nextTimerId := by
  unfold syncFromCurrentScroll setScrollSafely
  split
  · exact ⟨rfl, rfl, rfl⟩
  · simp only []
    split_ifs <;> exact ⟨rfl, rfl, rfl⟩

theorem tick_timers (s : Scroller) (ts : ℚ) :
    (tick s ts).pendingTimers = s.pendingTimers
      ∧ (tick s ts).persistTimer = s.persistTimer := by
  unfold tick setScrollSafely
  simp only []
  split_ifs <;> exact ⟨rfl, rfl⟩

theorem onResize_timers (s : Scroller) (w' : ℚ) :
    (onResize s w').pendingTimers = s.pendingTimers
      ∧ (onResize s w').persistTimer = s.persistTimer := by
  unfold onResize setScrollSafely
  simp only []
  split_ifs <;> exact ⟨rfl, rfl⟩

theorem timerInv_schedulePersist (s : Scroller) (h : timerInv s) :
    (schedulePersist s).pendingTimers = [s.nextTimerId]
      ∧ (schedulePersist s).persistTimer = some s.nextTimerId := by
  unfold timerInv at h
  cases hpt : s.persistTimer with
  | none =>
      rw [hpt] at h
      simp [schedulePersist, clearTimeout, hpt, h]
  | some handle =>
      rw [hpt] at h
      simp [schedulePersist, clearTimeout, hpt, h]

/-- C9: the persist debounce is single-slot.  Setup starts with no
pending timer; `schedulePersist` cancels any prior pending timeout
before scheduling a fresh one; every event preserves the invariant that
the pending timeouts are exactly the recorded handle (hence at most one
is outstanding); and the page-hide and visibility-hidden flush paths
cancel any pending timeout and then persist immediately and
unconditionally. -/
theorem single_slot_persist_timer :
    (∀ (w sl₀ : ℚ) (rd : Except Unit (Option ℚ)) (st₀ : Option ℚ),
        timerInv (setupAutoScroll w rd st₀ sl₀))
      ∧ (∀ (s : Scroller), timerInv s →
          (schedulePersist s).pendingTimers = [s.nextTimerId]
            ∧ (schedulePersist s).persistTimer = some s.nextTimerId)
      ∧ (∀ (s : Scroller) (ev : Ev), timerInv s → timerInv (step s ev))
      ∧ (∀ (s : Scroller), timerInv s → s.pendingTimers.length ≤ 1)
      ∧ (∀ (s : Scroller) (ok : Bool), timerInv s →
          (onPagehide s ok).pendingTimers = []
            ∧ (onPagehide s ok).persistTimer = none
            ∧ (onPagehide s ok).stored
                = (if ok then some s.savedPos else s.stored))
      ∧ (∀ (s : Scroller) (ok : Bool), timerInv s →
          (onVisibilitychange s true ok).pendingTimers = []
            ∧ (onVisibilitychange s true ok).persistTimer = none
            ∧ (onVisibilitychange s true ok).stored
                = (if ok then some s.savedPos else s.stored)) := by
  have hhide : ∀ (s : Scroller) (ok : Bool), timerInv s →
      (onPagehide s ok).pendingTimers = []
        ∧ (onPagehide s ok).persistTimer = none
        ∧ (onPagehide s ok).stored = (if ok then some s.savedPos else s.stored) := by
    intro s ok h
    unfold timerInv at h
    unfold onPagehide
    cases hpt : s.persistTimer with
    | none =>
        rw [hpt] at h
        rw [persistPosition_state]
        simp [h, hpt]
    | some handle =>
        rw [hpt] at h
        rw [persistPosition_state]
        simp [clearTimeout, h, hpt]
  have hvis : ∀ (s : Scroller) (ok : Bool), timerInv s →
      (onVisibilitychange s true ok).pendingTimers = []
        ∧ (onVisibilitychange s true ok).persistTimer = none
        ∧ (onVisibilitychange s true ok).stored
            = (if ok then some s.savedPos else s.stored) := by
    intro s ok h
    unfold timerInv at h
    unfold onVisibilitychange
    cases hpt : s.persistTimer with
    | none =>
        rw [hpt] at h
        rw [if_pos rfl, persistPosition_state]
        simp [h, hpt]
    | some handle =>
        rw [hpt] at h
        rw [if_pos rfl, persistPosition_state]
        simp [clearTimeout, h, hpt]
  refine ⟨?_, fun s h => timerInv_schedulePersist s h, ?_, ?_, hhide, hvis⟩
  · intro w sl₀ rd st₀
    unfold timerInv
    unfold setupAutoScroll setScrollSafely
    split <;> (simp only []; split_ifs <;> rfl)
  · intro s ev h
    cases ev with
    | scroll newScrollLeft =>
        unfold step onScroll
        simp only []
        split_ifs with hc
        · exact h
        · have hsync := syncFromCurrentScroll_timers { s with scrollLeft := newScrollLeft }
          have hs' : timerInv (syncFromCurrentScroll { s with scrollLeft := newScrollLeft }) := by
            unfold timerInv
            rw [hsync.1, hsync.2.1]
            exact h
          obtain ⟨h1, h2⟩ := timerInv_schedulePersist _ hs'
          unfold timerInv
          rw [h1, h2]
          rfl
    | frame ts =>
        obtain ⟨h1, h2⟩ := tick_timers s ts
        unfold step timerInv
        rw [h1, h2]
        exact h
    | resize newWidth =>
        obtain ⟨h1, h2⟩ := onResize_timers s newWidth
        unfold step timerInv
        rw [h1, h2]
        exact h
    | mouseenter => exact h
    | mouseleave => exact h
    | timerFire handle ok =>
        show timerInv (onPersistTimerFire s handle ok)
        unfold onPersistTimerFire
        unfold timerInv at h
        split_ifs with hmem
        · cases hpt : s.persistTimer with
          | none =>
              rw [hpt] at h
              rw [h] at hmem
              simp at hmem
          | some h0 =>
              rw [hpt] at h
              rw [h] at hmem
              simp at hmem
              subst hmem
              rw [persistPosition_state]
              unfold timerInv
              simp [h]
        · exact h
    | pagehide ok =>
        obtain ⟨h1, h2, _⟩ := hhide s ok h
        unfold step timerInv
        rw [h1, h2]
        rfl
    | visibilitychange hidden ok =>
        cases hidden with
        | true =>
            obtain ⟨h1, h2, _⟩ := hvis s ok h
            unfold step timerInv
            rw [h1, h2]
            rfl
        | false => exact h
  · intro s h
    unfold timerInv at h
    rw [h]
    cases s.persistTimer <;> simp

/-- Witness for C9 on a state with one pending timeout handle. -/
theorem single_slot_persist_timer_witness :
    timerInv (setupAutoScroll 1000 (Except.ok (some 250)) none 0)
      ∧ timerInv exTimerScroller
      ∧ exTimerScroller.pendingTimers.length ≤ 1
      ∧ timerInv (step exTimerScroller (Ev.pagehide true))
      ∧ (onPagehide exTimerScroller true).pendingTimers = [] := by
  have hinv : timerInv exTimerScroller := rfl
  refine ⟨single_slot_persist_timer.1 1000 0 (Except.ok (some 250)) none,
    hinv,
    single_slot_persist_timer.2.2.2.1 _ hinv,
    single_slot_persist_timer.2.2.1 _ (Ev.pagehide true) hinv,
    (single_slot_persist_timer.2.2.2.2.1 _ true hinv).1⟩

end Commission
